import Mathlib

/-!
Verification of the `roc` icon-library build pipeline (`build.mjs`).

The build script is shallowly embedded: each stage becomes a pure Lean
function over explicit inputs.  Filesystem reads are made explicit
arguments (e.g. the parsed ontology file content is an `Option Ontology`),
the SVGO `optimize` capability is an explicit `String → Except String String`
argument, and JavaScript numbers appearing in stroke-width policy are
embedded as `ℚ` (they are exact decimal literals).  JavaScript's
`localeCompare`-based ascending sorts are embedded as sorts by Lean's
lexicographic `String` order, which agrees with `localeCompare` on the
ASCII identifiers produced by this pipeline.
-/

namespace Roc

/-- Embeds `const STYLES = ['outline', 'solid', 'duotone', 'sharp']` (build.mjs line 7). -/
def STYLES : List String := ["outline", "solid", "duotone", "sharp"]

/-- Embeds `const STROKED_STYLES = new Set(['outline', 'duotone', 'sharp'])` (line 131). -/
def STROKED_STYLES : List String := ["outline", "duotone", "sharp"]

/-- A JavaScript word character, `\w = [A-Za-z0-9_]` (ASCII), as used by the
`toPascalCase` regex on line 55. -/
def isWordChar (c : Char) : Bool := c.isAlpha || c.isDigit || c = '_'

/-- Scanning core of the global regex replace
`str.replace(/(^|-)(\w)/g, (_, _sep, c) => c.toUpperCase())` (line 55) at
positions past the start anchor: a hyphen followed by a word character is
replaced by that character uppercased, anything else is copied. -/
def pascalAux : List Char → List Char
  | [] => []
  | c :: rest =>
    if c = '-' then
      match rest with
      | [] => ['-']
      | c2 :: rest2 =>
        if isWordChar c2 then c2.toUpper :: pascalAux rest2
        else '-' :: pascalAux (c2 :: rest2)
    else c :: pascalAux rest

/-- Full scan including the `^` anchor alternative, which matches only at
position 0: a leading word character is uppercased directly. -/
def pascalChars : List Char → List Char
  | [] => []
  | c :: rest => if isWordChar c then c.toUpper :: pascalAux rest else pascalAux (c :: rest)

/-- Embeds `toPascalCase` (build.mjs lines 54-56). -/
def toPascalCase (s : String) : String := String.mk (pascalChars s.data)

/-- Embeds `s.indexOf('>')` — first index of the character, or -1. -/
def jsIndexOfChar (s : String) (c : Char) : Int :=
  match s.data.findIdx? (· = c) with
  | some i => (i : Int)
  | none => -1

/-- Embeds `s.lastIndexOf(pat)` — greatest index at which `pat` occurs, or -1. -/
def jsLastIndexOf (s pat : String) : Int :=
  match ((List.range (s.data.length + 1)).filter
      (fun i => decide (pat.data <+: s.data.drop i))).getLast? with
  | some i => (i : Int)
  | none => -1

/-- Clamping of one `slice` argument to the string bounds, JS semantics:
a negative index counts from the end. -/
def jsIndexClamp (len : Nat) (i : Int) : Nat :=
  if i < 0 then len - min len (-i).toNat else min i.toNat len

/-- Embeds `s.slice(a, b)`. -/
def jsSlice (s : String) (a b : Int) : String :=
  String.mk (((s.data.take (jsIndexClamp s.data.length b)).drop
    (jsIndexClamp s.data.length a)))

/-- Embeds `s.trim()`. -/
def jsTrim (s : String) : String :=
  String.mk (((s.data.dropWhile Char.isWhitespace).reverse.dropWhile
    Char.isWhitespace).reverse)

/-- Embeds `getSvgInner` (build.mjs lines 58-62). -/
def getSvgInner (svgString : String) : String :=
  jsTrim (jsSlice svgString (jsIndexOfChar svgString '>' + 1)
    (jsLastIndexOf svgString "</svg>"))

/-- One raw record produced by `readSvgs` (lines 23-35): `{style, name, raw}`. -/
structure RawIcon where
  style : String
  name : String
  raw : String
deriving DecidableEq, Repr

/-- One manifest record pushed by `stageSvg` (line 84):
`{style, name, optimizedSvg, innerSvg}`. -/
structure ManifestEntry where
  style : String
  name : String
  optimizedSvg : String
  innerSvg : String
deriving DecidableEq, Repr

/-- Embeds the warning of line 86:
`console.warn(`  ⚠ skipping ${style}/${name}.svg: ${err.reason || err.message}`)`. -/
def warnSkipMsg (style name reason : String) : String :=
  "  ⚠ skipping " ++ style ++ "/" ++ name ++ ".svg: " ++ reason

/-- The manifest record built from a raw icon and its optimizer output (lines 79-84). -/
def mkEntry (r : RawIcon) (optimizedSvg : String) : ManifestEntry :=
  ⟨r.style, r.name, optimizedSvg, getSvgInner optimizedSvg⟩

/-- Embeds the per-icon loop of `stageSvg` (lines 77-88).  The SVGO `optimize`
capability is the explicit argument `opt`; its `Except.error` case is the
`catch` branch (the caught error's `reason || message` string).  Returns the
accumulated manifest together with the emitted skip warnings. -/
def stageSvg (opt : String → Except String String) :
    List RawIcon → List ManifestEntry × List String
  | [] => ([], [])
  | r :: rest =>
    let res := stageSvg opt rest
    match opt r.raw with
    | Except.ok o => (mkEntry r o :: res.1, res.2)
    | Except.error e => (res.1, warnSkipMsg r.style r.name e :: res.2)

/-- Per-icon ontology metadata, all fields optional (entries of `src/icons.json`). -/
structure OntIconMeta where
  label : Option String
  description : Option String
  category : Option String
  tags : Option (List String)
deriving DecidableEq, Repr

/-- The parsed ontology file: `{categories: [...], icons: {...}}`, the icon map
embedded as an association list in object-key order. -/
structure Ontology where
  categories : List String
  icons : List (String × OntIconMeta)
deriving DecidableEq, Repr

/-- Embeds the warning of line 40. -/
def ontologyNotFoundWarning : String :=
  "  ⚠ src/icons.json not found – using empty ontology"

/-- Embeds the warning of line 48. -/
def unknownCatWarning (name cat : String) : String :=
  "  ⚠ icon \"" ++ name ++ "\" has unknown category \"" ++ cat ++ "\""

/-- Embeds the category-validation loop of `loadOntology` (lines 44-50):
`if (meta.category && !validCats.has(meta.category))` — a non-empty (truthy)
declared category absent from the valid list is warned about. -/
def categoryWarnings (ont : Ontology) : List String :=
  ont.icons.filterMap fun p =>
    match p.2.category with
    | some c => if c ≠ "" ∧ c ∉ ont.categories then some (unknownCatWarning p.1 c) else none
    | none => none

/-- Embeds `loadOntology` (build.mjs lines 37-52).  The argument is the parsed
content of `src/icons.json` when the file exists, `none` when
`fs.existsSync` is false.  Returns the ontology together with the warnings
printed. -/
def loadOntology : Option Ontology → Ontology × List String
  | none => ({ categories := [], icons := [] }, [ontologyNotFoundWarning])
  | some ont => (ont, categoryWarnings ont)

/-- Embeds JavaScript `v || d` for an optional string `v`: `undefined` and the
empty string (both falsy) fall back to `d`. -/
def jsOrStr : Option String → String → String
  | none, d => d
  | some s, d => if s = "" then d else s

/-- Embeds `name.charAt(0).toUpperCase() + name.slice(1)` (line 109). -/
def capFirst (s : String) : String :=
  match s.data with
  | [] => ""
  | c :: rest => String.mk (c.toUpper :: rest)

/-- One entry of the metadata `icons` array (lines 107-114). -/
structure MetadataIcon where
  name : String
  label : String
  description : String
  category : String
  tags : List String
  styles : List String
deriving DecidableEq, Repr

/-- The metadata document shape (lines 103-120). -/
structure Metadata where
  icons : List MetadataIcon
  categories : List String
  totalCount : Nat
  styles : List String
deriving DecidableEq, Repr

/-- Embeds one step of the `byName` grouping loop (lines 97-101): append the
style to the existing entry for `name`, or push a fresh entry at the end —
JavaScript `Map` iteration preserves insertion order. -/
def addStyle : List (String × List String) → String → String → List (String × List String)
  | [], name, style => [(name, [style])]
  | (n, ss) :: rest, name, style =>
    if n = name then (n, ss ++ [style]) :: rest
    else (n, ss) :: addStyle rest name style

/-- Embeds the `byName` map of `stageMetadata` (lines 97-101). -/
def groupByName (manifest : List ManifestEntry) : List (String × List String) :=
  manifest.foldl (fun acc e => addStyle acc e.name e.style) []

/-- Embeds the per-name icon object of lines 105-115, with the `|| ` fallbacks. -/
def mkMetaIcon (ontology : Ontology) (name : String) (styles : List String) : MetadataIcon :=
  let meta := ontology.icons.lookup name
  { name := name
    label := jsOrStr (meta.bind (·.label)) (capFirst name)
    description := jsOrStr (meta.bind (·.description)) ""
    category := jsOrStr (meta.bind (·.category)) "Uncategorized"
    tags := (meta.bind (·.tags)).getD []
    styles := styles }

/-- Embedding of ascending `localeCompare` comparisons: lexicographic order on
the code-point sequences (which `localeCompare` agrees with on the ASCII
identifiers this pipeline produces). -/
def strLe (a b : String) : Prop := a.data ≤ b.data

instance : DecidableRel strLe :=
  fun a b => inferInstanceAs (Decidable (a.data ≤ b.data))

/-- Embeds `stageMetadata` (build.mjs lines 95-128) up to the final
`JSON.stringify`: the in-memory `metadata` object.  The
`.sort((a, b) => a.name.localeCompare(b.name))` is embedded as a sort by
`strLe` on names. -/
def stageMetadata (manifest : List ManifestEntry) (ontology : Ontology) : Metadata :=
  { icons := List.insertionSort (fun a b => strLe a.name b.name)
      ((groupByName manifest).map fun p => mkMetaIcon ontology p.1 p.2)
    categories := ontology.categories
    totalCount := manifest.length
    styles := STYLES }

/-- Embeds the React stroked default/override stroke-width computation
`const sw = strokeWidth ?? (size <= 16 ? 1.75 : 1.5);` (build.mjs line 184);
`none` is an absent (`undefined`) `strokeWidth` prop. -/
def reactStrokedSw (strokeWidth : Option ℚ) (size : ℚ) : ℚ :=
  match strokeWidth with
  | some w => w
  | none => if size ≤ 16 then 1.75 else 1.5

/-- Embeds the Svelte stroked stroke-width computation
`let sw = $derived(size <= 16 ? 1.75 : 1.5);` (build.mjs line 268). -/
def svelteStrokedSw (size : ℚ) : ℚ := if size ≤ 16 then 1.75 else 1.5

/-- Rendered stroke-width of a generated Svelte stroked component, as a function
of a caller-supplied stroke-width override and the `size` prop.  The generated
script (lines 266-269) destructures only `size` out of `$props()` and spreads
the rest onto the root `<svg>`; every drawable element carries an explicit
`stroke-width="{sw}"` with `sw` derived from `size` alone, so a supplied
override never reaches the rendered stroke-width. -/
def svelteRenderedSw (_strokeWidthOverride : Option ℚ) (size : ℚ) : ℚ :=
  svelteStrokedSw size

/-- The literal `stroke-width="` scanned for by the regexes of lines 140 and 261. -/
def swPat : List Char := "stroke-width=\"".data

/-- Fuel-indexed scan of the global regex replace `/stroke-width="[^"]*"/g`:
at each position a complete match (the literal, any non-quote run, a closing
quote) is replaced by `repl` and the scan resumes after the closing quote.
Each step consumes at least one character, so `fuel = length of the input`
always suffices; the 0-fuel branch is unreachable under that call pattern. -/
def replaceSWFuel (repl : String) : Nat → List Char → List Char
  | _, [] => []
  | 0, l => l
  | fuel + 1, c :: rest =>
    if swPat <+: (c :: rest) then
      let after := (c :: rest).drop swPat.length
      if after.contains '"' then
        repl.data ++ replaceSWFuel repl fuel ((after.dropWhile (· ≠ '"')).drop 1)
      else c :: rest
    else c :: replaceSWFuel repl fuel rest

/-- Embeds the global regex replace `/stroke-width="[^"]*"/g → repl` used by
`toJsxAttributes` (line 140, repl `strokeWidth={sw}`) and `stageSvelte`
(line 261, repl `stroke-width="{sw}"`). -/
def replaceSW (repl : String) (l : List Char) : List Char :=
  replaceSWFuel repl l.length l

/-- The dynamic stroke-width rewrite applied to `innerSvg` for stroked React
components (line 140). -/
def toJsxStrokeWidthDynamic (inner : String) : String :=
  String.mk (replaceSW "strokeWidth=\x7bsw\x7d" inner.data)

/-- The dynamic stroke-width rewrite applied to `innerSvg` for stroked Svelte
components (line 261). -/
def svelteStrokeWidthDynamic (inner : String) : String :=
  String.mk (replaceSW "stroke-width=\"\x7bsw\x7d\"" inner.data)

/-- The stroked React component template (build.mjs lines 181-194), with the
`${pascalName}` / `${jsxInner}` interpolations as arguments. -/
def reactStrokedComponent (pascalName jsxInner : String) : String :=
  "import \x7b forwardRef \x7d from \x27react\x27;\n\nconst " ++ pascalName ++
  " = forwardRef((\x7b size = 24, strokeWidth, className, ...props \x7d, ref) => \x7b\n" ++
  "  const sw = strokeWidth ?? (size <= 16 ? 1.75 : 1.5);\n  return (\n" ++
  "    <svg ref=\x7bref\x7d xmlns=\"http://www.w3.org/2000/svg\" width=\x7bsize\x7d height=\x7bsize\x7d viewBox=\"0 0 24 24\" fill=\"none\" className=\x7bclassName\x7d \x7b...props\x7d>\n" ++
  "      " ++ jsxInner ++ "\n    </svg>\n  );\n\x7d);\n\n" ++
  pascalName ++ ".displayName = \x27" ++ pascalName ++ "\x27;\nexport default " ++
  pascalName ++ ";\n"

/-- The `<script>` block of the stroked Svelte component template
(build.mjs lines 266-269). -/
def svelteStrokedScript : String :=
  "<script>\n  let \x7b size = 24, ...rest \x7d = $props();\n" ++
  "  let sw = $derived(size <= 16 ? 1.75 : 1.5);\n</script>\n"

/-- The stroked Svelte component template (build.mjs lines 266-274), with the
`${svgInner}` interpolation as an argument. -/
def svelteStrokedComponent (svgInner : String) : String :=
  svelteStrokedScript ++
  "\n<svg xmlns=\"http://www.w3.org/2000/svg\" width=\x7bsize\x7d height=\x7bsize\x7d viewBox=\"0 0 24 24\" fill=\"none\" \x7b...rest\x7d>\n  " ++
  svgInner ++ "\n</svg>\n"

/-- Embeds `const suffixedName = pascalName + toPascalCase(style)`
(build.mjs lines 205 and 294). -/
def suffixedName (style name : String) : String :=
  toPascalCase name ++ toPascalCase style

/-- The exported symbol names of the root barrel `dist/react/index.js`
(lines 217-221): all suffixed names, sorted ascending (`localeCompare`
embedded as the `String` order). -/
def reactRootBarrelNames (manifest : List ManifestEntry) : List String :=
  List.insertionSort strLe
    (manifest.map fun e => suffixedName e.style e.name)

/-- Embeds the sprite symbol id `` `${name}-${style}` `` (line 322). -/
def spriteId (e : ManifestEntry) : String := e.name ++ "-" ++ e.style

/-- One sprite `<symbol>` record (lines 320-325). -/
structure SpriteSymbol where
  id : String
  innerSvg : String
deriving DecidableEq, Repr

/-- Embeds the symbol list of `stageSprite` (lines 320-325): one record per
manifest entry, sorted ascending by id. -/
def spriteSymbols (manifest : List ManifestEntry) : List SpriteSymbol :=
  List.insertionSort (fun a b => strLe a.id b.id)
    (manifest.map fun e => ⟨spriteId e, e.innerSvg⟩)

/-- Embeds the per-symbol XML of lines 327-332. -/
def spriteSymbolXml (s : SpriteSymbol) : String :=
  "  <symbol id=\"" ++ s.id ++ "\" viewBox=\"0 0 24 24\" fill=\"none\">\n    " ++
  s.innerSvg ++ "\n  </symbol>"

/-- Embeds the sprite document of `stageSprite` (build.mjs lines 316-339). -/
def stageSprite (manifest : List ManifestEntry) : String :=
  "<svg xmlns=\"http://www.w3.org/2000/svg\">\n" ++
  String.intercalate "\n" ((spriteSymbols manifest).map spriteSymbolXml) ++
  "\n</svg>\n"

/-- The recognized CLI flags (build.mjs lines 12-16). -/
structure Flags where
  svg : Bool
  react : Bool
  svelte : Bool
  sprite : Bool
  demo : Bool
  watch : Bool
deriving DecidableEq, Repr

/-- Embeds `runAll` (lines 14-16): true when none of the six flags is given. -/
def runAll (f : Flags) : Bool :=
  !(f.svg || f.react || f.svelte || f.sprite || f.demo || f.watch)

/-- Embeds `needsSvg` (line 1783). -/
def needsSvg (f : Flags) (rebuild : Bool) : Bool :=
  runAll f || f.svg || f.react || f.svelte || f.sprite || rebuild

/-- Which stages one invocation of `main` (lines 1782-1797) runs, and how the
demo stage call ends.  `demoResult = none` means `stageDemo` is not invoked;
`some (Except.error _)` records that `stageDemo` was invoked with an
`undefined` manifest (when `needsSvg` is false no manifest is produced), whose
very first statement `for (const {...} of manifest)` throws a `TypeError`. -/
structure RunOutcome where
  manifestProduced : Bool
  reactRan : Bool
  svelteRan : Bool
  spriteRan : Bool
  metadataWritten : Bool
  demoResult : Option (Except String Unit)
deriving Repr

/-- Embeds `main` (build.mjs lines 1782-1797). -/
def mainRun (f : Flags) (rebuild : Bool) : RunOutcome :=
  let ns := needsSvg f rebuild
  { manifestProduced := ns
    reactRan := runAll f || f.react
    svelteRan := runAll f || f.svelte
    spriteRan := runAll f || f.sprite
    metadataWritten := ns
    demoResult :=
      if runAll f || f.demo then
        some (if ns then Except.ok () else
          Except.error "TypeError: manifest is not iterable")
      else none }

/-- The flag set of an invocation `node build.mjs --demo`. -/
def demoOnlyFlags : Flags := ⟨false, false, false, false, true, false⟩

/-- The flag set of an invocation `node build.mjs --watch`. -/
def watchOnlyFlags : Flags := ⟨false, false, false, false, false, true⟩

/-- The flag set of an invocation `node build.mjs` with no arguments. -/
def noFlags : Flags := ⟨false, false, false, false, false, false⟩

/-- The action a watch registration's callback performs.  `fullRebuild` is
`main(true)`; `demoOnly` (re-running only the demo stage against cached data)
is the vocabulary needed to state spec claims — no registration in the code
uses it. -/
inductive WatchAction where
  | fullRebuild
  | demoOnly
deriving DecidableEq, Repr

/-- One `fs.watch` registration of `stageWatch`: the watched path, whether the
watch is recursive, whether the callback ignores filenames not ending in
`.svg`, and the action performed after the 200 ms debounce. -/
structure WatchReg where
  target : String
  recursive : Bool
  svgFilter : Bool
  action : WatchAction
deriving DecidableEq, Repr

/-- Embeds the two `fs.watch` registrations of `stageWatch`
(build.mjs lines 1761-1779): `src/svg` (recursive, `.svg`-filtered) and
`src/icons.json`, both debounced by the shared `watchTimer` and both running
`main(true)`. -/
def stageWatchRegs : List WatchReg :=
  [⟨"src/svg", true, true, WatchAction.fullRebuild⟩,
   ⟨"src/icons.json", false, false, WatchAction.fullRebuild⟩]

/-- The debounce delay of `setTimeout(..., 200)` (lines 1770 and 1777). -/
def debounceDelay : Nat := 200

/-- Timer semantics of the shared `watchTimer` (lines 1763-1778): given the
ascending times of qualifying change events, an armed timer fires `delay`
after its event unless a later event arrives strictly earlier
(`clearTimeout` then re-arm).  Returns the times at which a rebuild fires. -/
def debounceFires (delay : Nat) : List Nat → List Nat
  | [] => []
  | [t] => [t + delay]
  | t :: t' :: rest =>
    (if t + delay ≤ t' then [t + delay] else []) ++ debounceFires delay (t' :: rest)

/-- A burst: every gap between consecutive event times is shorter than `delay`. -/
def burstGaps (delay : Nat) : List Nat → Bool
  | t :: t' :: rest => (t' < t + delay) && burstGaps delay (t' :: rest)
  | _ => true

/-- The 26 lowercase ASCII letters (used to state the kebab-case naming
convention of the repository's icon files). -/
def lowerChars : List Char :=
  ['a','b','c','d','e','f','g','h','i','j','k','l','m',
   'n','o','p','q','r','s','t','u','v','w','x','y','z']

/-- The 10 ASCII digits. -/
def digitChars : List Char :=
  ['0','1','2','3','4','5','6','7','8','9']

/-- A character allowed to start a kebab segment: a lowercase letter. -/
def kebabSegHead (c : Char) : Bool := lowerChars.contains c

/-- A character allowed inside a kebab segment: lowercase letter or digit. -/
def kebabSegChar (c : Char) : Bool := lowerChars.contains c || digitChars.contains c

/-- Recognizer for kebab-case names: nonempty hyphen-separated segments, each
a lowercase letter followed by lowercase letters or digits.  The flag is true
when the next character must start a segment (at the start and after a
hyphen). -/
def kebabFrom : Bool → List Char → Bool
  | needHead, [] => !needHead
  | true, c :: rest => kebabSegHead c && kebabFrom false rest
  | false, c :: rest =>
    if c = '-' then kebabFrom true rest else kebabSegChar c && kebabFrom false rest

/-- A kebab-case icon name, the repository's naming convention for files under
`src/svg/{style}/`. -/
def kebabName (s : String) : Bool := kebabFrom true s.data

/-- The uppercase letters paired with their lowercase forms (for inverting the
PascalCase transform on kebab names). -/
def upperLowerPairs : List (Char × Char) :=
  [('A','a'),('B','b'),('C','c'),('D','d'),('E','e'),('F','f'),('G','g'),
   ('H','h'),('I','i'),('J','j'),('K','k'),('L','l'),('M','m'),('N','n'),
   ('O','o'),('P','p'),('Q','q'),('R','r'),('S','s'),('T','t'),('U','u'),
   ('V','v'),('W','w'),('X','x'),('Y','y'),('Z','z')]

/-- Whether a character is an uppercase ASCII letter (by table lookup). -/
def isUpperKebab (c : Char) : Bool := (upperLowerPairs.lookup c).isSome

/-- The lowercase form of an uppercase ASCII letter (identity elsewhere). -/
def unLower (c : Char) : Char := (upperLowerPairs.lookup c).getD c

/-- Inverse scan of `pascalAux` on PascalCase output: an uppercase letter marks
a segment start, decoded as a hyphen plus the lowercase letter. -/
def unPascalAux : List Char → List Char
  | [] => []
  | c :: rest =>
    if isUpperKebab c then '-' :: unLower c :: unPascalAux rest
    else c :: unPascalAux rest

/-- Inverse of `pascalChars` on the image of kebab names: the leading
uppercase letter is decoded without a hyphen. -/
def unPascalChars : List Char → List Char
  | [] => []
  | c :: rest => unLower c :: unPascalAux rest

/-! ## Helper lemmas -/

/-- Two lists appended to a common result have comparable suffixes. -/
theorem suffix_comparable {α : Type} {a b x y : List α} (h : a ++ x = b ++ y) :
    x <:+ y ∨ y <:+ x := by
  have hx : x <:+ b ++ y := h ▸ List.suffix_append a x
  have hy : y <:+ b ++ y := List.suffix_append b y
  have hx' := ( List.reverse_prefix).mpr hx
  have hy' := ( List.reverse_prefix).mpr hy
  rcases List.prefix_or_prefix_of_prefix hx' hy' with h' | h'
  · exact Or.inl (( List.reverse_prefix).mp h')
  · exact Or.inr (( List.reverse_prefix).mp h')

/-! ## C6 — the select-demo-only invocation -/

/-- C6: the claim says `node build.mjs --demo` runs the Demo Stage and produces
the demo document without error.  The code disagrees: with only `--demo`,
`needsSvg` is false, `stageSvg` never runs, no manifest is produced, and
`stageDemo` is invoked with an `undefined` manifest — its first `for...of`
throws a `TypeError` and the run crashes.  This theorem evaluates the embedded
`main` at that flag set. -/
theorem C6_demo_only_crashes :
    (mainRun demoOnlyFlags false).demoResult =
      some (Except.error "TypeError: manifest is not iterable") ∧
    (mainRun demoOnlyFlags false).manifestProduced = false :=
  ⟨rfl, rfl⟩

/-! ## C8 — watch-mode debounce -/

/-- C8: for every burst of N ≥ 1 change events in which consecutive gaps are
shorter than the 200 ms debounce delay, the shared timer semantics (each event
cancels and re-arms the pending timer) fires exactly one rebuild. -/
theorem C8_debounce_single_rebuild (events : List Nat) (hne : events ≠ [])
    (hburst : burstGaps debounceDelay events = true) :
    (debounceFires debounceDelay events).length = 1 := by
  induction events with
  | nil => cases hne rfl
  | cons t rest ih =>
    cases rest with
    | nil => rfl
    | cons t' rest' =>
      have hb : (t' < t + debounceDelay) ∧ burstGaps debounceDelay (t' :: rest') = true := by
        simpa [burstGaps] using hburst
      have hnot : ¬ (t + debounceDelay ≤ t') := by omega
      have : debounceFires debounceDelay (t :: t' :: rest') =
          debounceFires debounceDelay (t' :: rest') := by
        simp [debounceFires, hnot]
      rw [this]
      exact ih (by simp) hb.2

/-- Witness for C8 at the concrete burst 0, 50, 120 ms. -/
theorem C8_debounce_single_rebuild_witness :
    ([0, 50, 120] : List Nat) ≠ [] ∧ burstGaps debounceDelay [0, 50, 120] = true ∧
    (debounceFires debounceDelay [0, 50, 120]).length = 1 :=
  ⟨by decide, by decide, C8_debounce_single_rebuild [0, 50, 120] (by decide) (by decide)⟩

/-! ## C9 — no separate demo-payload watch exists -/

/-- C9 counterexample: the claim asserts a separate, independent watch on the
presentational-payload (demo static) directory whose action re-runs only the
Demo Stage against cached values.  The code's `stageWatch` registers exactly
two watches — the SVG source tree and the ontology file — and both actions are
the debounced full rebuild `main(true)`; no registration watches a demo
directory and none performs a demo-only action. -/
theorem C9_counterexample_no_demo_watch :
    stageWatchRegs.map (fun r => r.target) = ["src/svg", "src/icons.json"] ∧
    stageWatchRegs.all (fun r => decide (r.action = WatchAction.fullRebuild)) = true ∧
    stageWatchRegs.all (fun r => decide (r.action ≠ WatchAction.demoOnly)) = true := by
  refine ⟨rfl, rfl, rfl⟩

/-- C9 amended: watch mode registers exactly two watches, on the SVG source
tree (recursive, `.svg`-filtered) and on the ontology file; every change event
action is the debounced full rebuild, which always re-runs the optimizer stage
(no manifest/ontology cache or demo-only fast path exists). -/
theorem C9_watch_full_rebuild_only :
    stageWatchRegs.map (fun r => (r.target, r.recursive, r.svgFilter)) =
      [("src/svg", true, true), ("src/icons.json", false, false)] ∧
    stageWatchRegs.all (fun r => decide (r.action = WatchAction.fullRebuild)) = true ∧
    (∀ f : Flags, (mainRun f true).manifestProduced = true ∧
      (mainRun f true).metadataWritten = true) := by
  refine ⟨rfl, rfl, fun f => ⟨?_, ?_⟩⟩ <;> simp [mainRun, needsSvg]

/-! ## C1 — optimizer failures are isolated per icon -/

/-- A failing optimizer call contributes its skip warning to the stage log. -/
theorem stageSvg_warn_mem (opt : String → Except String String) :
    ∀ {icons : List RawIcon} {r : RawIcon} {e : String}, r ∈ icons →
      opt r.raw = Except.error e →
      warnSkipMsg r.style r.name e ∈ (stageSvg opt icons).2 := by
  intro icons
  induction icons with
  | nil => intro r e hr _; cases hr
  | cons a rest ih =>
    intro r e hr he
    rcases List.mem_cons.mp hr with rfl | hr'
    · simp [stageSvg, he]
    · rcases h : opt a.raw with e' | o <;> simp [stageSvg, h] <;>
        [exact Or.inr (ih hr' he); exact ih hr' he]

/-- A succeeding optimizer call contributes its manifest record. -/
theorem stageSvg_entry_mem (opt : String → Except String String) :
    ∀ {icons : List RawIcon} {r : RawIcon} {o : String}, r ∈ icons →
      opt r.raw = Except.ok o →
      mkEntry r o ∈ (stageSvg opt icons).1 := by
  intro icons
  induction icons with
  | nil => intro r o hr _; cases hr
  | cons a rest ih =>
    intro r o hr ho
    rcases List.mem_cons.mp hr with rfl | hr'
    · simp [stageSvg, ho]
    · rcases h : opt a.raw with e' | o' <;> simp [stageSvg, h] <;>
        [exact ih hr' ho; exact Or.inr (ih hr' ho)]

/-- Every manifest record comes from a source record whose optimization
succeeded. -/
theorem stageSvg_mem_src (opt : String → Except String String) :
    ∀ {icons : List RawIcon} {m : ManifestEntry}, m ∈ (stageSvg opt icons).1 →
      ∃ r' ∈ icons, ∃ o, opt r'.raw = Except.ok o ∧ m = mkEntry r' o := by
  intro icons
  induction icons with
  | nil => intro m hm; cases hm
  | cons a rest ih =>
    intro m hm
    rcases h : opt a.raw with e' | o'
    · rw [show stageSvg opt (a :: rest) = ((stageSvg opt rest).1,
          warnSkipMsg a.style a.name e' :: (stageSvg opt rest).2) by simp [stageSvg, h]] at hm
      obtain ⟨r', hr', o, ho, rfl⟩ := ih hm
      exact ⟨r', List.mem_cons_of_mem a hr', o, ho, rfl⟩
    · rw [show stageSvg opt (a :: rest) = (mkEntry a o' :: (stageSvg opt rest).1,
          (stageSvg opt rest).2) by simp [stageSvg, h]] at hm
      rcases List.mem_cons.mp hm with rfl | hm'
      · exact ⟨a, List.mem_cons_self a rest, o', h, rfl⟩
      · obtain ⟨r', hr', o, ho, rfl⟩ := ih hm'
        exact ⟨r', List.mem_cons_of_mem a hr', o, ho, rfl⟩

/-- Every source record is accounted for: one manifest record or one warning. -/
theorem stageSvg_length (opt : String → Except String String) :
    ∀ icons : List RawIcon,
      (stageSvg opt icons).1.length + (stageSvg opt icons).2.length = icons.length := by
  intro icons
  induction icons with
  | nil => rfl
  | cons a rest ih =>
    rcases h : opt a.raw with e' | o' <;> simp [stageSvg, h] <;> omega

/-- C1: if the optimize capability reports an error for one record, the stage
logs that icon's identity and reason, omits only that icon from the manifest,
still includes every record whose optimization succeeds, and processes the
whole input list (one outcome per record — the run is not aborted). -/
theorem C1_optimizer_failure_isolated
    (opt : String → Except String String) (icons : List RawIcon)
    (hpairs : (icons.map (fun r => (r.style, r.name))).Nodup)
    (r : RawIcon) (hr : r ∈ icons) (e : String) (he : opt r.raw = Except.error e) :
    warnSkipMsg r.style r.name e ∈ (stageSvg opt icons).2 ∧
    (∀ m ∈ (stageSvg opt icons).1, ¬(m.style = r.style ∧ m.name = r.name)) ∧
    (∀ r' ∈ icons, ∀ o, opt r'.raw = Except.ok o → mkEntry r' o ∈ (stageSvg opt icons).1) ∧
    (stageSvg opt icons).1.length + (stageSvg opt icons).2.length = icons.length := by
  refine ⟨stageSvg_warn_mem opt hr he, ?_, fun r' hr' o ho => stageSvg_entry_mem opt hr' ho,
    stageSvg_length opt icons⟩
  rintro m hm ⟨hstyle, hname⟩
  obtain ⟨r', hr', o, ho, rfl⟩ := stageSvg_mem_src opt hm
  have hpair : (fun r => (r.style, r.name)) r' = (fun r => (r.style, r.name)) r := by
    simp [mkEntry] at hstyle hname
    simp [hstyle, hname]
  have : r' = r := List.inj_on_of_nodup_map hpairs hr' hr hpair
  rw [this, he] at ho
  cases ho

/-- Witness for C1: three records, the middle one rejected by the optimizer. -/
theorem C1_optimizer_failure_isolated_witness :
    warnSkipMsg "outline" "b" "parse error" ∈
      (stageSvg (fun raw => if raw = "bad" then Except.error "parse error" else Except.ok raw)
        [⟨"outline", "a", "svgA"⟩, ⟨"outline", "b", "bad"⟩, ⟨"solid", "c", "svgC"⟩]).2 ∧
    (stageSvg (fun raw => if raw = "bad" then Except.error "parse error" else Except.ok raw)
        [⟨"outline", "a", "svgA"⟩, ⟨"outline", "b", "bad"⟩, ⟨"solid", "c", "svgC"⟩]).1.length +
      (stageSvg (fun raw => if raw = "bad" then Except.error "parse error" else Except.ok raw)
        [⟨"outline", "a", "svgA"⟩, ⟨"outline", "b", "bad"⟩, ⟨"solid", "c", "svgC"⟩]).2.length = 3 := by
  have h := C1_optimizer_failure_isolated
    (fun raw => if raw = "bad" then Except.error "parse error" else Except.ok raw)
    [⟨"outline", "a", "svgA"⟩, ⟨"outline", "b", "bad"⟩, ⟨"solid", "c", "svgC"⟩]
    (by decide) ⟨"outline", "b", "bad"⟩ (by decide) "parse error" rfl
  exact ⟨h.1, h.2.2.2⟩

/-! ## C4 — metadata document shape -/

/-- The keys of `addStyle acc n s`: unchanged when `n` is already a key,
otherwise extended by `n` at the end. -/
theorem addStyle_keys (acc : List (String × List String)) (n s : String) :
    (addStyle acc n s).map Prod.fst =
      if n ∈ acc.map Prod.fst then acc.map Prod.fst else acc.map Prod.fst ++ [n] := by
  induction acc with
  | nil => simp [addStyle]
  | cons p rest ih =>
    obtain ⟨k, ss⟩ := p
    by_cases hk : k = n
    · subst hk
      simp [addStyle]
    · simp only [addStyle, if_neg hk, List.map_cons, List.mem_cons]
      rw [ih]
      by_cases hmem : n ∈ rest.map Prod.fst
      · simp [hmem, Ne.symm hk]
      · simp [hmem, Ne.symm hk]

/-- The grouping fold keeps its key list duplicate-free. -/
theorem groupFold_keys_nodup :
    ∀ (m : List ManifestEntry) (acc : List (String × List String)),
      (acc.map Prod.fst).Nodup →
      ((m.foldl (fun a e => addStyle a e.name e.style) acc).map Prod.fst).Nodup := by
  intro m
  induction m with
  | nil => intro acc h; simpa using h
  | cons e rest ih =>
    intro acc h
    simp only [List.foldl_cons]
    refine ih _ ?_
    rw [addStyle_keys]
    by_cases hmem : e.name ∈ acc.map Prod.fst
    · simpa [hmem] using h
    · simp only [if_neg hmem]
      exact List.Nodup.append h (List.nodup_singleton _) (by simpa using hmem)

/-- The grouping fold's key set is the accumulated key set plus the names seen. -/
theorem groupFold_keys_toFinset :
    ∀ (m : List ManifestEntry) (acc : List (String × List String)),
      ((m.foldl (fun a e => addStyle a e.name e.style) acc).map Prod.fst).toFinset =
        (acc.map Prod.fst).toFinset ∪ (m.map (fun e => e.name)).toFinset := by
  intro m
  induction m with
  | nil => intro acc; simp
  | cons e rest ih =>
    intro acc
    simp only [List.foldl_cons, List.map_cons, List.toFinset_cons]
    rw [ih, addStyle_keys]
    by_cases hmem : e.name ∈ acc.map Prod.fst
    · rw [if_pos hmem]
      have hin : e.name ∈ (acc.map Prod.fst).toFinset := by simpa using hmem
      rw [Finset.union_insert, Finset.insert_eq_self.mpr (Finset.mem_union_left _ hin)]
    · rw [if_neg hmem]
      rw [List.toFinset_append, Finset.union_insert]
      ext x
      simp only [Finset.mem_union, List.mem_toFinset, List.mem_singleton, Finset.mem_insert]
      tauto

/-- The number of groups equals the number of distinct icon names. -/
theorem groupByName_length (m : List ManifestEntry) :
    (groupByName m).length = (m.map (fun e => e.name)).toFinset.card := by
  have hnodup : ((groupByName m).map Prod.fst).Nodup :=
    groupFold_keys_nodup m [] (by simp)
  have hset : ((groupByName m).map Prod.fst).toFinset =
      (m.map (fun e => e.name)).toFinset := by
    have := groupFold_keys_toFinset m []
    simpa [groupByName] using this
  calc (groupByName m).length = ((groupByName m).map Prod.fst).length :=
        (List.length_map _ _).symm
    _ = ((groupByName m).map Prod.fst).toFinset.card :=
        (List.toFinset_card_of_nodup hnodup).symm
    _ = (m.map (fun e => e.name)).toFinset.card := by rw [hset]

/-- C4: the metadata document has `totalCount` = number of manifest records,
`icons` length = number of distinct icon names, icons sorted ascending by
name, `categories` = the ontology's category list verbatim, and `styles` = the
fixed style enumeration. -/
theorem C4_metadata_shape (manifest : List ManifestEntry) (ontology : Ontology) :
    (stageMetadata manifest ontology).totalCount = manifest.length ∧
    (stageMetadata manifest ontology).icons.length =
      (manifest.map (fun e => e.name)).toFinset.card ∧
    List.Sorted (fun a b => strLe a.name b.name) (stageMetadata manifest ontology).icons ∧
    (stageMetadata manifest ontology).categories = ontology.categories ∧
    (stageMetadata manifest ontology).styles = STYLES := by
  refine ⟨rfl, ?_, ?_, rfl, rfl⟩
  · have hperm := List.perm_insertionSort (fun a b => strLe a.name b.name)
      ((groupByName manifest).map fun p => mkMetaIcon ontology p.1 p.2)
    calc (stageMetadata manifest ontology).icons.length
        = ((groupByName manifest).map fun p => mkMetaIcon ontology p.1 p.2).length :=
          hperm.length_eq
      _ = (groupByName manifest).length := List.length_map _ _
      _ = (manifest.map (fun e => e.name)).toFinset.card := groupByName_length manifest
  · haveI : IsTotal MetadataIcon (fun a b => strLe a.name b.name) :=
      ⟨fun a b => le_total a.name.data b.name.data⟩
    haveI : IsTrans MetadataIcon (fun a b => strLe a.name b.name) :=
      ⟨fun _ _ _ hab hbc => le_trans hab hbc⟩
    exact List.sorted_insertionSort _ _

/-! ## C7 — absent ontology: empty ontology, warning, per-field fallbacks -/

/-- C7: when `src/icons.json` is absent the loader returns the empty ontology
with a warning, and the metadata built from it synthesizes every field:
label = name with its first character capitalized, empty description,
"Uncategorized" category, no tags — with `totalCount` unchanged. -/
theorem C7_empty_ontology_fallbacks :
    loadOntology none = ({ categories := [], icons := [] }, [ontologyNotFoundWarning]) ∧
    ∀ manifest : List ManifestEntry,
      (stageMetadata manifest (loadOntology none).1).totalCount = manifest.length ∧
      ∀ ic ∈ (stageMetadata manifest (loadOntology none).1).icons,
        ic.label = capFirst ic.name ∧ ic.description = "" ∧
        ic.category = "Uncategorized" ∧ ic.tags = [] := by
  refine ⟨rfl, fun manifest => ⟨rfl, fun ic hic => ?_⟩⟩
  have hperm := List.perm_insertionSort (fun a b : MetadataIcon => strLe a.name b.name)
    ((groupByName manifest).map fun p => mkMetaIcon (loadOntology none).1 p.1 p.2)
  have hic' : ic ∈ (groupByName manifest).map
      fun p => mkMetaIcon (loadOntology none).1 p.1 p.2 := hperm.mem_iff.mp hic
  obtain ⟨p, _, rfl⟩ := List.mem_map.mp hic'
  simp [mkMetaIcon, loadOntology, jsOrStr]

/-- Witness for C7: a one-record manifest with no ontology. -/
theorem C7_empty_ontology_fallbacks_witness :
    (stageMetadata [⟨"outline", "home", "opt", "inner"⟩] (loadOntology none).1).totalCount = 1 ∧
    (("Home" : String) = capFirst "home" ∧ ("" : String) = "" ∧
      ("Uncategorized" : String) = "Uncategorized" ∧ ([] : List String) = []) := by
  have h := C7_empty_ontology_fallbacks.2 [⟨"outline", "home", "opt", "inner"⟩]
  refine ⟨h.1, ?_⟩
  have hm := h.2 ⟨"home", "Home", "", "Uncategorized", [], ["outline"]⟩ (by decide)
  exact hm

/-! ## C5 — sprite determinism and id uniqueness -/

/-- Since no style identifier is a suffix of another, appending the style to
`name ++ "-"` is injective on (style, name) pairs. -/
theorem spriteId_style_eq {s1 s2 : String} (hs1 : s1 ∈ STYLES) (hs2 : s2 ∈ STYLES)
    {n1 n2 : String} (h : n1 ++ "-" ++ s1 = n2 ++ "-" ++ s2) : s1 = s2 ∧ n1 = n2 := by
  have hd : (n1 ++ "-").data ++ s1.data = (n2 ++ "-").data ++ s2.data := by
    have := congrArg String.data h
    simpa [String.data_append] using this
  have hsuf := suffix_comparable hd
  have hstyle : s1 = s2 := by
    simp only [STYLES, List.mem_cons, List.mem_singleton, List.not_mem_nil, or_false] at hs1 hs2
    rcases hs1 with rfl | rfl | rfl | rfl <;> rcases hs2 with rfl | rfl | rfl | rfl <;>
      first
        | rfl
        | (exfalso; rcases hsuf with h' | h' <;> revert h' <;> decide)
  subst hstyle
  refine ⟨rfl, ?_⟩
  have := List.append_cancel_right hd
  have hn : n1.data ++ "-".data = n2.data ++ "-".data := by
    simpa [String.data_append] using this
  exact String.ext (List.append_cancel_right hn)

/-- Two sorted lists with the same elements and duplicate-free sort keys are
equal. -/
theorem eq_of_perm_sorted_keys {α β : Type} [LinearOrder β] (key : α → β) :
    ∀ {l1 l2 : List α}, l1.Perm l2 →
      List.Sorted (fun a b => key a ≤ key b) l1 →
      List.Sorted (fun a b => key a ≤ key b) l2 →
      (l1.map key).Nodup → l1 = l2 := by
  intro l1
  induction l1 with
  | nil => intro l2 hp _ _ _; exact (hp.nil_eq).symm ▸ rfl
  | cons a t1 ih =>
    intro l2 hp hs1 hs2 hnd
    cases l2 with
    | nil => exact absurd hp.symm.nil_eq (by simp)
    | cons b t2 =>
      rw [List.map_cons] at hnd
      have hnd2 := List.nodup_cons.mp hnd
      have hab : a = b := by
        by_contra hne
        have ha2 : a ∈ b :: t2 := hp.mem_iff.mp (List.mem_cons_self a t1)
        have hat2 : a ∈ t2 := by
          rcases List.mem_cons.mp ha2 with h' | h'
          · exact absurd h' hne
          · exact h'
        have hb1 : b ∈ a :: t1 := hp.mem_iff.mpr (List.mem_cons_self b t2)
        have hbt1 : b ∈ t1 := by
          rcases List.mem_cons.mp hb1 with h' | h'
          · exact absurd h'.symm hne
          · exact h'
        have h1 : key a ≤ key b := (List.sorted_cons.mp hs1).1 b hbt1
        have h2 : key b ≤ key a := (List.sorted_cons.mp hs2).1 a hat2
        have hkey : key a = key b := le_antisymm h1 h2
        exact hnd2.1 (hkey ▸ List.mem_map_of_mem key hbt1)
      subst hab
      have hpt : t1.Perm t2 := hp.cons_inv
      have := ih hpt (List.sorted_cons.mp hs1).2 (List.sorted_cons.mp hs2).2 hnd2.2
      rw [this]

/-- C5: the sprite has exactly one symbol per manifest record with id
`{name}-{style}`, the ids are pairwise distinct and sorted ascending, and the
sprite document is identical for any permutation of the manifest. -/
theorem C5_sprite_deterministic (manifest : List ManifestEntry)
    (hstyles : ∀ e ∈ manifest, e.style ∈ STYLES)
    (hpairs : (manifest.map (fun e => (e.style, e.name))).Nodup) :
    (spriteSymbols manifest).length = manifest.length ∧
    ((spriteSymbols manifest).map (fun s => s.id)).Perm (manifest.map spriteId) ∧
    ((spriteSymbols manifest).map (fun s => s.id)).Nodup ∧
    List.Sorted (fun a b => strLe a.id b.id) (spriteSymbols manifest) ∧
    ∀ manifest2, manifest2.Perm manifest → stageSprite manifest2 = stageSprite manifest := by
  haveI : IsTotal SpriteSymbol (fun a b => strLe a.id b.id) :=
    ⟨fun a b => le_total a.id.data b.id.data⟩
  haveI : IsTrans SpriteSymbol (fun a b => strLe a.id b.id) :=
    ⟨fun _ _ _ hab hbc => le_trans hab hbc⟩
  have hperm : (spriteSymbols manifest).Perm
      (manifest.map fun e => (⟨spriteId e, e.innerSvg⟩ : SpriteSymbol)) :=
    List.perm_insertionSort _ _
  have hids : ((spriteSymbols manifest).map (fun s => s.id)).Perm (manifest.map spriteId) := by
    have := hperm.map (fun s : SpriteSymbol => s.id)
    simpa [List.map_map, Function.comp] using this
  have hidsnodup : (manifest.map spriteId).Nodup := by
    have hmapped : manifest.map spriteId =
        (manifest.map (fun e => (e.style, e.name))).map (fun p => p.2 ++ "-" ++ p.1) := by
      simp [List.map_map, Function.comp, spriteId]
    rw [hmapped]
    refine List.Nodup.map_on ?_ hpairs
    intro x hx y hy hxy
    obtain ⟨ex, hex, rfl⟩ := List.mem_map.mp hx
    obtain ⟨ey, hey, rfl⟩ := List.mem_map.mp hy
    have := spriteId_style_eq (hstyles ex hex) (hstyles ey hey) hxy
    exact congrArg₂ Prod.mk this.1 this.2
  refine ⟨hperm.length_eq.trans (List.length_map _ _), hids, ?_, ?_, ?_⟩
  · exact (hids.nodup_iff).mpr hidsnodup
  · exact List.sorted_insertionSort _ _
  · intro manifest2 hp2
    have heq : spriteSymbols manifest2 = spriteSymbols manifest := by
      have hs2' : List.Sorted (fun a b : SpriteSymbol => strLe a.id b.id)
          (spriteSymbols manifest2) := List.sorted_insertionSort _ _
      have hs1' : List.Sorted (fun a b : SpriteSymbol => strLe a.id b.id)
          (spriteSymbols manifest) := List.sorted_insertionSort _ _
      refine eq_of_perm_sorted_keys (fun s : SpriteSymbol => s.id.data) ?_ hs2' hs1' ?_
      · exact (List.perm_insertionSort _ _).trans
          ((hp2.map _).trans (List.perm_insertionSort _ _).symm)
      · have : ((spriteSymbols manifest2).map (fun s => s.id)).Nodup := by
          have hids2 : ((spriteSymbols manifest2).map (fun s => s.id)).Perm
              (manifest2.map spriteId) := by
            have := (List.perm_insertionSort
              (fun a b : SpriteSymbol => strLe a.id b.id)
              (manifest2.map fun e => (⟨spriteId e, e.innerSvg⟩ : SpriteSymbol))).map
              (fun s : SpriteSymbol => s.id)
            simpa [List.map_map, Function.comp] using this
          refine (hids2.nodup_iff).mpr ?_
          exact ((hp2.map spriteId).nodup_iff).mpr hidsnodup
        have hmm : (spriteSymbols manifest2).map (fun s : SpriteSymbol => s.id.data) =
            ((spriteSymbols manifest2).map (fun s => s.id)).map String.data := by
          simp [List.map_map, Function.comp]
        rw [hmm]
        exact this.map (fun a b h => String.ext h)
    unfold stageSprite
    rw [heq]

/-- Witness for C5: a two-record manifest in both orders. -/
theorem C5_sprite_deterministic_witness :
    (spriteSymbols [⟨"outline", "home", "o1", "ih"⟩, ⟨"outline", "bell", "o2", "ib"⟩]).length = 2 ∧
    ((spriteSymbols [⟨"outline", "home", "o1", "ih"⟩, ⟨"outline", "bell", "o2", "ib"⟩]).map
      (fun s => s.id)).Nodup ∧
    stageSprite [⟨"outline", "bell", "o2", "ib"⟩, ⟨"outline", "home", "o1", "ih"⟩] =
      stageSprite [⟨"outline", "home", "o1", "ih"⟩, ⟨"outline", "bell", "o2", "ib"⟩] := by
  have h := C5_sprite_deterministic
    [⟨"outline", "home", "o1", "ih"⟩, ⟨"outline", "bell", "o2", "ib"⟩]
    (by decide) (by decide)
  exact ⟨h.1, h.2.2.1, h.2.2.2.2 _ (by decide)⟩

/-! ## C3 — derived PascalCase identifiers and root-barrel names -/

/-- Facts about lowercase letters, checked by enumeration. -/
theorem kebab_lower_facts : ∀ c ∈ lowerChars, isWordChar c = true ∧
    isUpperKebab c.toUpper = true ∧ unLower c.toUpper = c ∧ isUpperKebab c = false := by
  decide

/-- Facts about digits, checked by enumeration. -/
theorem kebab_digit_facts : ∀ c ∈ digitChars,
    isWordChar c = true ∧ isUpperKebab c = false := by
  decide

/-- Unfolds `List.contains` into membership. -/
theorem contains_mem {c : Char} {l : List Char} (h : l.contains c = true) : c ∈ l := by
  simpa using h

/-- On valid kebab continuations, `unPascalAux` inverts `pascalAux`. -/
theorem unPascalAux_pascalAux : ∀ l : List Char, kebabFrom false l = true →
    unPascalAux (pascalAux l) = l := by
  intro l
  induction l using pascalAux.induct with
  | case1 => intro _; rfl
  | case2 =>
    intro hk
    simp [kebabFrom] at hk
  | case3 c2 rest2 hword ih =>
    intro hk
    have hk' : kebabSegHead c2 = true ∧ kebabFrom false rest2 = true := by
      simpa [kebabFrom, Bool.and_eq_true] using hk
    have hc2 : c2 ∈ lowerChars := contains_mem hk'.1
    have hf := kebab_lower_facts c2 hc2
    rw [show pascalAux ('-' :: c2 :: rest2) = c2.toUpper :: pascalAux rest2 by
      rw [pascalAux.eq_def]; simp [hword]]
    rw [show unPascalAux (c2.toUpper :: pascalAux rest2) =
        '-' :: unLower c2.toUpper :: unPascalAux (pascalAux rest2) by
      simp [unPascalAux, hf.2.1]]
    rw [hf.2.2.1, ih hk'.2]
  | case4 c2 rest2 hword _ =>
    intro hk
    have hk' : kebabSegHead c2 = true ∧ kebabFrom false rest2 = true := by
      simpa [kebabFrom, Bool.and_eq_true] using hk
    have hc2 : c2 ∈ lowerChars := contains_mem hk'.1
    exact absurd (kebab_lower_facts c2 hc2).1 hword
  | case5 c rest hc ih =>
    intro hk
    have hk' : kebabSegChar c = true ∧ kebabFrom false rest = true := by
      simpa [kebabFrom, hc, Bool.and_eq_true] using hk
    have hor : c ∈ lowerChars ∨ c ∈ digitChars := by
      simpa [kebabSegChar] using hk'.1
    have hupper : isUpperKebab c = false := by
      rcases hor with h' | h'
      · exact (kebab_lower_facts c h').2.2.2
      · exact (kebab_digit_facts c h').2
    rw [show pascalAux (c :: rest) = c :: pascalAux rest by
      rw [pascalAux.eq_def]; simp [hc]]
    rw [show unPascalAux (c :: pascalAux rest) = c :: unPascalAux (pascalAux rest) by
      simp [unPascalAux, hupper]]
    rw [ih hk'.2]

/-- On kebab names, `unPascalChars` inverts `pascalChars`. -/
theorem unPascalChars_pascalChars : ∀ l : List Char, kebabFrom true l = true →
    unPascalChars (pascalChars l) = l := by
  intro l h
  cases l with
  | nil => simp [kebabFrom] at h
  | cons c rest =>
    have h' : kebabSegHead c = true ∧ kebabFrom false rest = true := by
      simpa [kebabFrom, Bool.and_eq_true] using h
    have hc : c ∈ lowerChars := contains_mem h'.1
    have hf := kebab_lower_facts c hc
    simp only [pascalChars, hf.1, if_true]
    simp only [unPascalChars, hf.2.2.1]
    rw [unPascalAux_pascalAux rest h'.2]

/-- On kebab names the PascalCase transform is injective. -/
theorem toPascalCase_inj {n1 n2 : String} (h1 : kebabName n1 = true)
    (h2 : kebabName n2 = true) (h : toPascalCase n1 = toPascalCase n2) : n1 = n2 := by
  have hd : pascalChars n1.data = pascalChars n2.data := congrArg String.data h
  have h' := congrArg unPascalChars hd
  rw [unPascalChars_pascalChars _ h1, unPascalChars_pascalChars _ h2] at h'
  exact String.ext h'

/-- Appending the PascalCase style suffix keeps (style, kebab-name) pairs
distinguishable: no style's PascalCase form is a suffix of another's. -/
theorem suffixedName_inj {s1 s2 n1 n2 : String} (hs1 : s1 ∈ STYLES) (hs2 : s2 ∈ STYLES)
    (hk1 : kebabName n1 = true) (hk2 : kebabName n2 = true)
    (h : suffixedName s1 n1 = suffixedName s2 n2) : s1 = s2 ∧ n1 = n2 := by
  have hd : (toPascalCase n1).data ++ (toPascalCase s1).data =
      (toPascalCase n2).data ++ (toPascalCase s2).data := by
    have := congrArg String.data h
    simpa [suffixedName, String.data_append] using this
  have hsuf := suffix_comparable hd
  have hstyle : s1 = s2 := by
    simp only [STYLES, List.mem_cons, List.mem_singleton, List.not_mem_nil, or_false] at hs1 hs2
    rcases hs1 with rfl | rfl | rfl | rfl <;> rcases hs2 with rfl | rfl | rfl | rfl <;>
      first
        | rfl
        | (exfalso; rcases hsuf with h' | h' <;> revert h' <;> decide)
  subst hstyle
  exact ⟨rfl, toPascalCase_inj hk1 hk2 (String.ext (List.append_cancel_right hd))⟩

/-- C3 counterexample: the claim's "distinct icon names always yield distinct
derived PascalCase identifiers" fails for names outside the kebab-case
convention: "a-b" and "aB" are distinct, both PascalCase to "AB", and a
manifest holding both (distinct (style, name) pairs) yields a root barrel with
two identical exported names. -/
theorem C3_counterexample :
    ("a-b" : String) ≠ "aB" ∧
    toPascalCase "a-b" = toPascalCase "aB" ∧
    (([⟨"outline", "a-b", "", ""⟩, ⟨"outline", "aB", "", ""⟩] :
      List ManifestEntry).map (fun e => (e.style, e.name))).Nodup ∧
    reactRootBarrelNames [⟨"outline", "a-b", "", ""⟩, ⟨"outline", "aB", "", ""⟩] =
      ["ABOutline", "ABOutline"] ∧
    ¬ (reactRootBarrelNames [⟨"outline", "a-b", "", ""⟩, ⟨"outline", "aB", "", ""⟩]).Nodup :=
  ⟨by decide, by decide, by decide, by decide, by decide⟩

/-- C3 amended: restricted to the repository's kebab-case icon-name convention
(nonempty hyphen-separated segments, each a lowercase letter followed by
lowercase letters or digits): distinct kebab names yield distinct PascalCase
identifiers, and for every manifest with distinct (style, name) pairs whose
styles come from the style enumeration, the root-barrel exported names are
pairwise distinct. -/
theorem C3_root_barrel_names_unique :
    (∀ n1 n2 : String, kebabName n1 = true → kebabName n2 = true →
      toPascalCase n1 = toPascalCase n2 → n1 = n2) ∧
    ∀ manifest : List ManifestEntry,
      (∀ e ∈ manifest, e.style ∈ STYLES) →
      (∀ e ∈ manifest, kebabName e.name = true) →
      (manifest.map (fun e => (e.style, e.name))).Nodup →
      (reactRootBarrelNames manifest).Nodup := by
  refine ⟨fun n1 n2 h1 h2 h => toPascalCase_inj h1 h2 h, ?_⟩
  intro manifest hstyles hkebab hpairs
  have hmap : (manifest.map fun e => suffixedName e.style e.name).Nodup := by
    have hmm : manifest.map (fun e => suffixedName e.style e.name) =
        (manifest.map (fun e => (e.style, e.name))).map (fun p => suffixedName p.1 p.2) := by
      simp [List.map_map, Function.comp]
    rw [hmm]
    refine List.Nodup.map_on ?_ hpairs
    intro x hx y hy hxy
    obtain ⟨ex, hex, rfl⟩ := List.mem_map.mp hx
    obtain ⟨ey, hey, rfl⟩ := List.mem_map.mp hy
    have h := suffixedName_inj (hstyles ex hex) (hstyles ey hey)
      (hkebab ex hex) (hkebab ey hey) hxy
    exact congrArg₂ Prod.mk h.1 h.2
  exact ((List.perm_insertionSort strLe _).nodup_iff).mpr hmap

/-- Witness for C3 at a concrete two-style manifest of kebab names. -/
theorem C3_root_barrel_names_unique_witness :
    ("arrow-left" : String) = "arrow-left" ∧
    (reactRootBarrelNames [⟨"outline", "home", "", ""⟩, ⟨"solid", "home", "", ""⟩,
      ⟨"outline", "arrow-left", "", ""⟩]).Nodup := by
  constructor
  · exact C3_root_barrel_names_unique.1 "arrow-left" "arrow-left"
      (by decide) (by decide) rfl
  · exact C3_root_barrel_names_unique.2
      [⟨"outline", "home", "", ""⟩, ⟨"solid", "home", "", ""⟩,
        ⟨"outline", "arrow-left", "", ""⟩]
      (by decide) (by decide) (by decide)

/-! ## C2 — stroke-width defaults and overrides -/

set_option maxRecDepth 20000 in
/-- C2 counterexample: the claim says that in both target frameworks a supplied
stroke-width override is used instead of the computed default.  The generated
Svelte stroked component exposes no stroke-width prop at all — its script
derives `sw` from `size` alone (the literal text "strokeWidth" does not even
occur in the generated script) — so with `size = 24` and an override of 2 the
rendered stroke-width is still 1.5, not 2. -/
theorem C2_counterexample :
    svelteRenderedSw (some 2) 24 = 1.5 ∧ (1.5 : ℚ) ≠ 2 ∧
    ¬ ("strokeWidth".data <:+: svelteStrokedScript.data) := by
  refine ⟨?_, by norm_num, by decide⟩
  norm_num [svelteRenderedSw, svelteStrokedSw]

set_option maxRecDepth 20000 in
/-- C2 amended: in the React framework the computed default is 1.75 for
`size ≤ 16` and 1.5 otherwise, and an explicit override takes precedence; in
the Svelte framework the rendered stroke-width always equals the computed
default (the component accepts no override).  The embedded content rewrites
bind the stroke-width attributes to the live `sw` value in both frameworks. -/
theorem C2_stroke_width_policy :
    (∀ size : ℚ, size ≤ 16 → reactStrokedSw none size = 1.75) ∧
    (∀ size : ℚ, 16 < size → reactStrokedSw none size = 1.5) ∧
    (∀ w size : ℚ, reactStrokedSw (some w) size = w) ∧
    (∀ (o : Option ℚ) (size : ℚ), svelteRenderedSw o size = reactStrokedSw none size) ∧
    toJsxStrokeWidthDynamic "<path stroke-width=\"1.5\"/>" =
      "<path strokeWidth=\x7bsw\x7d/>" ∧
    svelteStrokeWidthDynamic "<path stroke-width=\"1.5\"/>" =
      "<path stroke-width=\"\x7bsw\x7d\"/>" ∧
    ("strokeWidth ?? (size <= 16 ? 1.75 : 1.5)").data <:+:
      (reactStrokedComponent "Home" "<inner/>").data ∧
    ¬ ("strokeWidth".data <:+: svelteStrokedScript.data) := by
  refine ⟨fun size h => ?_, fun size h => ?_, fun w size => rfl, fun o size => rfl,
    by decide, by decide, by decide, by decide⟩
  · simp [reactStrokedSw, h]
  · simp [reactStrokedSw, not_le.mpr h]

/-- Witness for C2 at sizes 16 and 24 and override 2. -/
theorem C2_stroke_width_policy_witness :
    reactStrokedSw none 16 = 1.75 ∧ reactStrokedSw none 24 = 1.5 ∧
    reactStrokedSw (some 2) 24 = 2 ∧
    svelteRenderedSw (some 2) 24 = reactStrokedSw none 24 :=
  ⟨C2_stroke_width_policy.1 16 (by norm_num),
    C2_stroke_width_policy.2.1 24 (by norm_num),
    C2_stroke_width_policy.2.2.1 2 24,
    C2_stroke_width_policy.2.2.2.1 (some 2) 24⟩

/-! ## C10 — the metadata stage runs exactly when a manifest is produced -/

/-- C10: the Metadata Stage has no flag of its own; it runs exactly when a
manifest was produced in the invocation (`if (manifest) stageMetadata(...)`):
any run with no flags, or with at least one of `--svg --react --svelte
--sprite`, writes metadata, while a run with only `--demo` or only `--watch`
does not. -/
theorem C10_metadata_selection (f : Flags) (rebuild : Bool)
    (h : (f.svg || f.react || f.svelte || f.sprite) = true) :
    (mainRun f rebuild).metadataWritten = (mainRun f rebuild).manifestProduced ∧
    (mainRun f false).metadataWritten = true ∧
    (mainRun noFlags false).metadataWritten = true ∧
    (mainRun demoOnlyFlags false).metadataWritten = false ∧
    (mainRun watchOnlyFlags false).metadataWritten = false := by
  refine ⟨rfl, ?_, rfl, rfl, rfl⟩
  simp only [mainRun, needsSvg]
  rcases Bool.or_eq_true_iff.mp h with h' | h'
  · rcases Bool.or_eq_true_iff.mp h' with h'' | h''
    · rcases Bool.or_eq_true_iff.mp h'' with h3 | h3 <;> simp [h3]
    · simp [h'']
  · simp [h']

/-- Witness for C10 with the `--react` flag set. -/
theorem C10_metadata_selection_witness :
    ((⟨false, true, false, false, false, false⟩ : Flags).svg ||
      (⟨false, true, false, false, false, false⟩ : Flags).react ||
      (⟨false, true, false, false, false, false⟩ : Flags).svelte ||
      (⟨false, true, false, false, false, false⟩ : Flags).sprite) = true ∧
    (mainRun ⟨false, true, false, false, false, false⟩ false).metadataWritten = true :=
  ⟨by decide,
    (C10_metadata_selection ⟨false, true, false, false, false, false⟩ false (by decide)).2.1⟩

end Roc
